import Mathlib

/-!
Verification of the provider-routing / completion-cache core of the
Xynenyx LLM service.  Python sources are shallowly embedded: dictionaries
become association lists, floats become rationals (`ℚ`), wall-clock time
(`datetime.now()`) becomes an explicit `now : ℚ` argument, exceptions
become `Except` / `Option` values, and the SHA-256 digest is an abstract
`hash` parameter (the source treats its output as collision-free ground
truth, so theorems about key distinctness assume injectivity of `hash`).
-/

namespace App

/-- A chat message, as in `app/schemas/completions.py` (`Message`): a `role`
string (unconstrained by the schema) and a `content` string. -/
structure Msg where
  role : String
  content : String
  deriving DecidableEq, Repr

/-! ### JSON serialization used by the cache key

`CompletionCache._get_cache_key` serializes
`{"messages": messages, "temperature": temperature}` with
`json.dumps(..., sort_keys=True)` and hashes the result with SHA-256.
We embed the serialization character-exactly (Python's default
`ensure_ascii=True` escaping, default separators, keys sorted so
`content` precedes `role` and `messages` precedes `temperature`).  The
temperature, a Python float, is modeled as `ℚ`; its JSON rendering is an
injective numeral string (Python's `repr` of a float is injective on
float values). -/

/-- Lowercase hexadecimal digit for `k < 16`, as emitted by Python's
`\uXXXX` escapes. -/
def hexDig (k : ℕ) : Char :=
  if k < 10 then Char.ofNat (48 + k) else Char.ofNat (87 + k)

/-- Numeric value of a lowercase hexadecimal digit character. -/
def hexVal (c : Char) : ℕ :=
  if 97 ≤ c.toNat then c.toNat - 87 else c.toNat - 48

/-- Four-digit lowercase hex rendering of `n < 65536`. -/
def hex4 (n : ℕ) : List Char :=
  [hexDig (n / 4096 % 16), hexDig (n / 256 % 16), hexDig (n / 16 % 16), hexDig (n % 16)]

/-- Escape of a single character under Python `json.dumps` with
`ensure_ascii=True`: `"` and `\` get backslash escapes, the five control
characters with short escapes use them, every other character outside
`0x20..0x7E` becomes `\uXXXX` (a surrogate pair for astral characters),
and printable ASCII passes through. -/
def escChar (c : Char) : List Char :=
  if c = '"' then ['\\', '"']
  else if c = '\\' then ['\\', '\\']
  else if c = '\n' then ['\\', 'n']
  else if c = '\t' then ['\\', 't']
  else if c = '\r' then ['\\', 'r']
  else if c = Char.ofNat 8 then ['\\', 'b']
  else if c = Char.ofNat 12 then ['\\', 'f']
  else if 32 ≤ c.toNat ∧ c.toNat ≤ 126 then [c]
  else if c.toNat < 65536 then '\\' :: 'u' :: hex4 c.toNat
  else ('\\' :: 'u' :: hex4 (55296 + (c.toNat - 65536) / 1024)) ++
       ('\\' :: 'u' :: hex4 (56320 + (c.toNat - 65536) % 1024))

/-- JSON string-body escaping, character by character. -/
def jsonEscape : List Char → List Char
  | [] => []
  | c :: cs => escChar c ++ jsonEscape cs

/-- Decimal digits of `n`, most significant first (fuel-driven so that it
is structurally recursive and kernel-reducible). -/
def natDigitsAux : ℕ → ℕ → List Char
  | 0, _ => []
  | fuel + 1, n =>
    if n < 10 then [hexDig n] else natDigitsAux fuel (n / 10) ++ [hexDig (n % 10)]

/-- Decimal digits of `n`, most significant first. -/
def natDigits (n : ℕ) : List Char := natDigitsAux (n + 1) n

/-- Injective textual rendering of the temperature rational, modeling the
(injective) `repr` that `json.dumps` applies to the Python float. -/
def ratRepr (q : ℚ) : List Char :=
  (if q.num < 0 then ['-'] else []) ++ natDigits q.num.natAbs ++ '/' :: natDigits q.den

/-- Literal opening of the serialized payload: `{"messages": [`. -/
def headLit : List Char := "\x7b\"messages\": [".data

/-- Literal opening of one serialized message: `{"content": "`. -/
def msgPre : List Char := "\x7b\"content\": \"".data

/-- Literal between the content and role fields: `, "role": "`. -/
def midLit : List Char := ", \"role\": \"".data

/-- Separator between serialized messages. -/
def sepLit : List Char := ", ".data

/-- Literal between the message array and the temperature: `], "temperature": `. -/
def tailLit : List Char := "], \"temperature\": ".data

/-- Closing brace of a JSON object. -/
def closeLit : List Char := "\x7d".data

/-- Serialization of one message dict with keys sorted
(`content` before `role`): `{"content": "...", "role": "..."}`. -/
def msgJson (m : Msg) : List Char :=
  msgPre ++ jsonEscape m.content.data ++ '"' :: midLit ++ jsonEscape m.role.data ++ '"' :: closeLit

/-- Serialization of the message array body (order-preserving,
`, `-separated). -/
def msgsJson : List Msg → List Char
  | [] => []
  | [m] => msgJson m
  | m :: m2 :: ms => msgJson m ++ sepLit ++ msgsJson (m2 :: ms)

/-- The full canonical serialization hashed by `_get_cache_key`:
`json.dumps({"messages": messages, "temperature": temperature}, sort_keys=True)`. -/
def cacheStr (messages : List Msg) (temperature : ℚ) : List Char :=
  headLit ++ msgsJson messages ++ tailLit ++ ratRepr temperature ++ closeLit

/-- `CompletionCache._get_cache_key` (`app/services/cache.py`): returns
`None` when `temperature > 0.3` (non-deterministic requests are not
cached), otherwise the `hash` (SHA-256 hex digest in the source) of the
canonical serialization. -/
def get_cache_key (hash : List Char → String) (messages : List Msg) (temperature : ℚ) :
    Option String :=
  if temperature > 3 / 10 then none
  else some (hash (cacheStr messages temperature))

/-! ### The in-memory cache -/

/-- Lookup in an association list modeling a Python dict. -/
def alookup (k : String) : List (String × α) → Option α
  | [] => none
  | (k2, v) :: rest => if k2 = k then some v else alookup k rest

/-- Key deletion (`del d[k]`). -/
def aerase (k : String) : List (String × α) → List (String × α)
  | [] => []
  | (k2, v) :: rest => if k2 = k then aerase k rest else (k2, v) :: aerase k rest

/-- Key assignment (`d[k] = v`): replaces in place or appends. -/
def aupdate (k : String) (v : α) : List (String × α) → List (String × α)
  | [] => [(k, v)]
  | (k2, w) :: rest => if k2 = k then (k, v) :: rest else (k2, w) :: aupdate k v rest

/-- One stored cache value: the dict
`\x7b"completion": ..., "timestamp": datetime.now()\x7d`. -/
structure CacheEntry (α : Type) where
  completion : α
  timestamp : ℚ
  deriving DecidableEq, Repr

/-- `CompletionCache` state: the backing dict and the configured
time-to-live (`ttl_seconds`, default 3600). -/
structure CompletionCache (α : Type) where
  cache : List (String × CacheEntry α)
  ttl_seconds : ℚ
  deriving DecidableEq, Repr

/-- `CompletionCache.get`: key derivation (absent key — `None` or empty,
Python truthiness — means ineligible, return `None`), lookup, lazy
eviction when `now - timestamp > ttl_seconds`.  Returns the result and
the post-state. -/
def CompletionCache.get (hash : List Char → String) (c : CompletionCache α) (now : ℚ)
    (messages : List Msg) (temperature : ℚ) : Option α × CompletionCache α :=
  match get_cache_key hash messages temperature with
  | none => (none, c)
  | some key =>
    if key.isEmpty then (none, c)
    else
      match alookup key c.cache with
      | none => (none, c)
      | some entry =>
        if now - entry.timestamp > c.ttl_seconds then
          (none, ⟨aerase key c.cache, c.ttl_seconds⟩)
        else
          (some entry.completion, c)

/-- `CompletionCache.set`: no-op when the key is absent (ineligible
temperature), otherwise unconditional insert/overwrite with the current
timestamp. -/
def CompletionCache.set (hash : List Char → String) (c : CompletionCache α) (now : ℚ)
    (messages : List Msg) (completion : α) (temperature : ℚ) : CompletionCache α :=
  match get_cache_key hash messages temperature with
  | none => c
  | some key =>
    if key.isEmpty then c
    else ⟨aupdate key ⟨completion, now⟩ c.cache, c.ttl_seconds⟩

/-- `CompletionCache.size`. -/
def CompletionCache.size (c : CompletionCache α) : ℕ := c.cache.length

/-- `CompletionCache.clear`. -/
def CompletionCache.clear (c : CompletionCache α) : CompletionCache α :=
  ⟨[], c.ttl_seconds⟩

/-! ### A decoder for the canonical serialization

The decoder below is a verification artifact (not part of the source):
it is a left inverse of `cacheStr`, which yields injectivity of the
cache-key serialization — the formal content of the spec's key-sensitivity
property. -/

/-- Prepend a decoded character to a string-decoder result. -/
def consR (c : Char) : Option (List Char × List Char) → Option (List Char × List Char)
  | none => none
  | some (d, r) => some (c :: d, r)

/-- Strip an expected literal from the front of the input. -/
def dropLit : List Char → List Char → Option (List Char)
  | [], s => some s
  | _ :: _, [] => none
  | p :: ps, c :: cs => if p = c then dropLit ps cs else none

/-- Fuel-driven decoder of a JSON string body: consumes characters up to
and including the terminating unescaped `"`, undoing `escChar` (including
surrogate-pair `\uXXXX\uXXXX` forms), and returns the decoded characters
with the rest of the input. -/
def unescAux : ℕ → List Char → Option (List Char × List Char)
  | 0, _ => none
  | _ + 1, [] => none
  | fuel + 1, c :: rest =>
    if c = '"' then some ([], rest)
    else if c = '\\' then
      match rest with
      | [] => none
      | e :: r =>
        if e = '"' then consR '"' (unescAux fuel r)
        else if e = '\\' then consR '\\' (unescAux fuel r)
        else if e = 'n' then consR '\n' (unescAux fuel r)
        else if e = 't' then consR '\t' (unescAux fuel r)
        else if e = 'r' then consR '\r' (unescAux fuel r)
        else if e = 'b' then consR (Char.ofNat 8) (unescAux fuel r)
        else if e = 'f' then consR (Char.ofNat 12) (unescAux fuel r)
        else if e = 'u' then
          match r with
          | h1 :: h2 :: h3 :: h4 :: r2 =>
            let v := ((hexVal h1 * 16 + hexVal h2) * 16 + hexVal h3) * 16 + hexVal h4
            if 55296 ≤ v ∧ v < 56320 then
              match r2 with
              | b1 :: b2 :: g1 :: g2 :: g3 :: g4 :: r3 =>
                if b1 = '\\' ∧ b2 = 'u' then
                  let w := ((hexVal g1 * 16 + hexVal g2) * 16 + hexVal g3) * 16 + hexVal g4
                  consR (Char.ofNat (65536 + (v - 55296) * 1024 + (w - 56320)))
                    (unescAux fuel r3)
                else none
              | _ => none
            else consR (Char.ofNat v) (unescAux fuel r2)
          | _ => none
        else none
    else consR c (unescAux fuel rest)

/-- Decimal-digit test. -/
def isDigitC (c : Char) : Bool := decide (48 ≤ c.toNat) && decide (c.toNat ≤ 57)

/-- Value of a digit string, most significant first. -/
def digitsToNat (l : List Char) : ℕ := l.foldl (fun acc c => 10 * acc + (c.toNat - 48)) 0

/-- Greedy decimal-numeral decoder (at least one digit). -/
def parseNat (s : List Char) : Option (ℕ × List Char) :=
  let ds := s.takeWhile isDigitC
  if ds.isEmpty then none else some (digitsToNat ds, s.dropWhile isDigitC)

/-- Decoder for the unsigned `numerator/denominator` part of `ratRepr`. -/
def parseRatMag (s : List Char) : Option ((ℕ × ℕ) × List Char) :=
  match parseNat s with
  | none => none
  | some (n, s2) =>
    match s2 with
    | '/' :: s3 =>
      match parseNat s3 with
      | none => none
      | some (d, s4) => some ((n, d), s4)
    | _ => none

/-- Decoder matching `ratRepr`. -/
def parseRat (s : List Char) : Option (ℚ × List Char) :=
  match s with
  | [] => none
  | c :: s1 =>
    if c = '-' then
      match parseRatMag s1 with
      | none => none
      | some ((n, d), s4) => some (-(n : ℚ) / (d : ℚ), s4)
    else
      match parseRatMag (c :: s1) with
      | none => none
      | some ((n, d), s4) => some ((n : ℚ) / (d : ℚ), s4)

/-- Decoder matching `msgJson` (`uf` is the fuel handed to `unescAux`). -/
def parseMsg (uf : ℕ) (s : List Char) : Option (Msg × List Char) :=
  match dropLit msgPre s with
  | none => none
  | some s1 =>
    match unescAux uf s1 with
    | none => none
    | some (content, s2) =>
      match dropLit midLit s2 with
      | none => none
      | some s3 =>
        match unescAux uf s3 with
        | none => none
        | some (role, s4) =>
          match dropLit closeLit s4 with
          | none => none
          | some s5 => some (⟨String.mk role, String.mk content⟩, s5)

/-- Decoder matching `msgsJson` for a nonempty message array: one message,
then further `, `-separated messages while the separator is present. -/
def parseMsgsAux : ℕ → ℕ → List Char → Option (List Msg × List Char)
  | 0, _, _ => none
  | lf + 1, uf, s =>
    match parseMsg uf s with
    | none => none
    | some (m, s1) =>
      match dropLit sepLit s1 with
      | none => some ([m], s1)
      | some s2 =>
        match parseMsgsAux lf uf s2 with
        | none => none
        | some (ms, s3) => some (m :: ms, s3)

/-- Decoder matching `cacheStr`: a left inverse of the canonical
serialization. -/
def cacheParse (s : List Char) : Option (List Msg × ℚ) :=
  match dropLit headLit s with
  | none => none
  | some s1 =>
    match dropLit tailLit s1 with
    | some s2 =>
      match parseRat s2 with
      | none => none
      | some (q, s3) =>
        match dropLit closeLit s3 with
        | some [] => some ([], q)
        | _ => none
    | none =>
      match parseMsgsAux (s1.length + 1) (s1.length + 1) s1 with
      | none => none
      | some (ms, s2) =>
        match dropLit tailLit s2 with
        | none => none
        | some s3 =>
          match parseRat s3 with
          | none => none
          | some (q, s4) =>
            match dropLit closeLit s4 with
            | some [] => some (ms, q)
            | _ => none

/-- Sequence of `get` calls at the given times, threading the cache state
(models successive reads by later requests). -/
def CompletionCache.getMany (hash : List Char → String) (c : CompletionCache α)
    (times : List ℚ) (messages : List Msg) (temperature : ℚ) :
    List (Option α) × CompletionCache α :=
  match times with
  | [] => ([], c)
  | u :: us =>
    let step := CompletionCache.get hash c u messages temperature
    let rest := CompletionCache.getMany hash step.2 us messages temperature
    (step.1 :: rest.1, rest.2)

/-! ### Settings and the provider router -/

/-- The configuration flags consumed by `ProviderRouter.__init__`
(`app/config.py::Settings`): per-vendor enabled flags and credentials.
`openai_api_key` is a required string; the other two are optional. -/
structure Settings where
  openai_enabled : Bool
  openai_api_key : String
  anthropic_enabled : Bool
  anthropic_api_key : Option String
  google_enabled : Bool
  google_api_key : Option String
  deriving DecidableEq, Repr

/-- Python truthiness of an optional string credential. -/
def credTruthy : Option String → Bool
  | none => false
  | some s => !s.isEmpty

/-- Provider identity (which concrete provider class an entry of
`self.providers` holds). -/
inductive Provider
  | openaiProvider
  | anthropicProvider
  | geminiProvider
  deriving DecidableEq, Repr

/-- `BaseProvider.name` for each variant. -/
def Provider.name : Provider → String
  | Provider.openaiProvider => "openai"
  | Provider.anthropicProvider => "anthropic"
  | Provider.geminiProvider => "gemini"

/-- Router state: the `provider_id -> provider` dict. -/
structure ProviderRouter where
  providers : List (String × Provider)
  deriving DecidableEq, Repr

/-- `ProviderRouter.__init__` (`app/providers/router.py`): OpenAI is added
when `openai_enabled` and `openai_api_key` are truthy.  The Anthropic and
Gemini registrations are commented out in the source (both branches are
`pass` with a TODO), so those vendors are never added regardless of their
flags. -/
def ProviderRouter.init (s : Settings) : ProviderRouter :=
  { providers :=
      if s.openai_enabled && !s.openai_api_key.isEmpty then
        [("openai", Provider.openaiProvider)]
      else [] }

/-- The two `ValueError` raise sites of `ProviderRouter.get_provider`. -/
inductive RouterError
  | noProvidersAvailable
  | providerNotFound (provider_id : String)
  deriving DecidableEq, Repr

/-- `ProviderRouter.get_provider`: with no id, return `providers["openai"]`
when present else raise `ValueError("No providers available")`; with an id,
exact lookup else raise `ValueError("... not found or not enabled")`. -/
def ProviderRouter.get_provider (r : ProviderRouter) (provider_id : Option String) :
    Except RouterError Provider :=
  match provider_id with
  | none =>
    match alookup "openai" r.providers with
    | some p => Except.ok p
    | none => Except.error RouterError.noProvidersAvailable
  | some pid =>
    match alookup pid r.providers with
    | some p => Except.ok p
    | none => Except.error (RouterError.providerNotFound pid)

/-! ### Provider results, messages, streaming -/

/-- `CompletionUsage` (`app/providers/base.py`). -/
structure CompletionUsage where
  prompt_tokens : ℕ
  completion_tokens : ℕ
  total_tokens : ℕ
  deriving DecidableEq, Repr

/-- The zero usage defaulted when no accounting is available. -/
def zeroUsage : CompletionUsage := ⟨0, 0, 0⟩

/-- `CompletionResponse` (`app/providers/base.py`); `metadata`
(`Dict[str, Any]`) is modeled as a string association list. -/
structure CompletionResponse where
  content : String
  usage : CompletionUsage
  model : String
  metadata : List (String × String)
  deriving DecidableEq, Repr

/-- `EmbeddingResponse` (`app/providers/base.py`); floats as rationals. -/
structure EmbeddingResponse where
  embedding : List ℚ
  model : String
  usage : CompletionUsage
  metadata : List (String × String)
  deriving DecidableEq, Repr

/-- The exception classes distinguished by the route handlers:
`ValueError` versus any other `Exception`. -/
inductive PyErr
  | valueError (msg : String)
  | otherError (msg : String)
  deriving DecidableEq, Repr

/-- `OpenAIProvider.complete` (`app/providers/openai.py`): the whole body
is a try/except wrapping ANY upstream failure into
`ValueError("OpenAI completion error: " + str(e))`.  The upstream call's
outcome is the parameter. -/
def OpenAIProvider.completeResult (upstream : Except String CompletionResponse) :
    Except PyErr CompletionResponse :=
  match upstream with
  | Except.ok r => Except.ok r
  | Except.error e => Except.error (PyErr.valueError ("OpenAI completion error: " ++ e))

/-- `OpenAIProvider.embed`: wraps any upstream failure into
`ValueError("OpenAI embedding error: " + str(e))`. -/
def OpenAIProvider.embedResult (upstream : Except String EmbeddingResponse) :
    Except PyErr EmbeddingResponse :=
  match upstream with
  | Except.ok r => Except.ok r
  | Except.error e => Except.error (PyErr.valueError ("OpenAI embedding error: " ++ e))

/-- LangChain message classes produced by `_convert_messages`. -/
inductive LCMessage
  | systemMessage (content : String)
  | aiMessage (content : String)
  | humanMessage (content : String)
  deriving DecidableEq, Repr

/-- `OpenAIProvider._convert_messages`: `system` and `assistant` map to
their classes; every other role string falls through to `HumanMessage`
(the `else: # user or default` branch). -/
def OpenAIProvider.convert_messages (messages : List Msg) : List LCMessage :=
  messages.map fun m =>
    if m.role = "system" then LCMessage.systemMessage m.content
    else if m.role = "assistant" then LCMessage.aiMessage m.content
    else LCMessage.humanMessage m.content

/-- Pydantic validation of `Message` (`app/schemas/completions.py`): both
fields are required plain `str` fields — any role string passes, absence of
either field fails. -/
def Message.validate (role : Option String) (content : Option String) : Option Msg :=
  match role, content with
  | some r, some c => some ⟨r, c⟩
  | _, _ => none

/-- One chunk produced by LangChain's `astream`: its `content` and the
`token_usage` of its `response_metadata` (`none` when missing or empty). -/
structure UpChunk where
  content : String
  token_usage : Option CompletionUsage
  deriving DecidableEq, Repr

/-- Outcome of the upstream transport during `OpenAIProvider.stream`:
either setup before iteration fails (the outer `except`), or the iterator
yields `chunks` and then finishes cleanly (`failure = none`) or raises
(the inner `except`). -/
inductive UpOutcome
  | setupFailure (msg : String)
  | run (chunks : List UpChunk) (failure : Option String)
  deriving DecidableEq, Repr

/-- The tagged stream chunk variants (`type` ∈ token / end / error). -/
inductive StreamChunk
  | token (content : String)
  | endChunk (usage : CompletionUsage)
  | errorChunk (content : String)
  deriving DecidableEq, Repr

/-- Terminal chunks are `end` and `error`. -/
def StreamChunk.isTerminal : StreamChunk → Bool
  | StreamChunk.token _ => false
  | StreamChunk.endChunk _ => true
  | StreamChunk.errorChunk _ => true

/-- The `token` chunks yielded inside the loop: one per upstream chunk with
nonempty (truthy) content, in emission order. -/
def tokenChunks (chunks : List UpChunk) : List StreamChunk :=
  (chunks.filter (fun ch => !ch.content.isEmpty)).map fun ch => StreamChunk.token ch.content

/-- `usage_data` after the loop: the last nonempty `token_usage` observed
(the post-loop re-check of `last_chunk` can only re-find that same value),
defaulted to zeros in the final `end` chunk. -/
def finalUsage (chunks : List UpChunk) : CompletionUsage :=
  ((chunks.filterMap UpChunk.token_usage).getLast?).getD zeroUsage

/-- `OpenAIProvider.stream` as a function of the upstream outcome: tokens
in order, then exactly one terminal chunk — `end` on clean completion,
`error` when setup or the iteration raised (the except clauses yield an
error chunk instead of re-raising). -/
def OpenAIProvider.stream : UpOutcome → List StreamChunk
  | UpOutcome.setupFailure e => [StreamChunk.errorChunk e]
  | UpOutcome.run chunks none =>
      tokenChunks chunks ++ [StreamChunk.endChunk (finalUsage chunks)]
  | UpOutcome.run chunks (some e) =>
      tokenChunks chunks ++ [StreamChunk.errorChunk e]

/-! ### Usage tracker and the HTTP handlers -/

/-- `UsageTracker._calculate_cost`: per-1000-token rates from the static
table, defaulting to zero rates for unknown models. -/
def calculate_cost (cost_rates : List (String × (ℚ × ℚ))) (model : String)
    (usage : CompletionUsage) : ℚ :=
  let rates := (alookup model cost_rates).getD (0, 0)
  (usage.prompt_tokens : ℚ) / 1000 * rates.1 + (usage.completion_tokens : ℚ) / 1000 * rates.2

/-- `UsageTracker.track`: the Supabase insert is wrapped in
`try/except Exception` which logs and swallows the failure, so `track`
returns normally whatever the persistence outcome. -/
def UsageTracker.track (persist : Except String Unit) : Except String Unit :=
  match persist with
  | Except.ok _ => Except.ok ()
  | Except.error _ => Except.ok ()

/-- `CompletionRequest` (`app/schemas/completions.py`). -/
structure CompletionRequest where
  messages : List Msg
  provider : Option String
  model : Option String
  temperature : ℚ
  max_tokens : Option ℕ
  deriving DecidableEq, Repr

/-- The record the completions route stores into the cache on a miss
(the dict literal at `completions.py` lines 67-81). -/
structure StoredCompletion where
  provider : String
  content : String
  model : String
  usage : CompletionUsage
  metadata : List (String × String)
  deriving DecidableEq, Repr

/-- The JSON body of a 200 response from `POST /complete`. -/
structure CompletionHTTPResponse where
  provider : String
  content : String
  model : String
  usage : CompletionUsage
  metadata : List (String × String)
  deriving DecidableEq, Repr

/-- Response shaping from a cached record (`completions.py` lines 46-52).
The `.get(..., default)` fallbacks there are unreachable because every
stored record carries all five keys. -/
def shapeCached (rec : StoredCompletion) : CompletionHTTPResponse :=
  ⟨rec.provider, rec.content, rec.model, rec.usage, rec.metadata⟩

/-- Observable outcome of one synchronous completion request: HTTP status,
body (on 200), whether the provider and the usage tracker were invoked,
and the cache state afterwards. -/
structure SyncOutcome where
  status : ℕ
  body : Option CompletionHTTPResponse
  providerCalled : Bool
  usageTracked : Bool
  cacheAfter : CompletionCache StoredCompletion
  deriving DecidableEq, Repr

/-- The `POST /complete` handler (`app/routers/completions.py::complete`).
Control flow: missing/empty `X-User-ID` → 400; cache hit (a stored record
is a five-key dict, always truthy) → shape cached record, no provider
call, no tracking; miss → resolve provider (its `ValueError` → 400); then
the handler builds the keyword arguments of `provider.complete`, and the
access `request.response_format` (line 63) raises `AttributeError` —
`CompletionRequest` declares no such field (and `complete` accepts no such
keyword) — which `except Exception` turns into 500.  The provider call,
the cache `set` and the `usage_tracker.track` below that line are
therefore never reached on the miss path.  The `upstream` (provider call
outcome) and `persist` (usage-insert outcome) parameters are retained to
state that neither collaborator's outcome can influence the response:
the code never consults either on this path. -/
def completeHandler (hash : List Char → String) (cache : CompletionCache StoredCompletion)
    (router : ProviderRouter) (now : ℚ) (_upstream : Except String CompletionResponse)
    (_persist : Except String Unit) (x_user_id : Option String) (req : CompletionRequest) :
    SyncOutcome :=
  if (x_user_id.getD "").isEmpty then
    ⟨400, none, false, false, cache⟩
  else
    match CompletionCache.get hash cache now req.messages req.temperature with
    | (some rec, cache1) => ⟨200, some (shapeCached rec), false, false, cache1⟩
    | (none, cache1) =>
      match ProviderRouter.get_provider router req.provider with
      | Except.error _ => ⟨400, none, false, false, cache1⟩
      | Except.ok _ => ⟨500, none, false, false, cache1⟩

/-- The JSON body of a 200 response from `POST /embeddings`. -/
structure EmbeddingHTTPResponse where
  provider : String
  embedding : List ℚ
  model : String
  usage : CompletionUsage
  metadata : List (String × String)
  deriving DecidableEq, Repr

/-- Observable outcome of one embedding request. -/
structure EmbedOutcome where
  status : ℕ
  body : Option EmbeddingHTTPResponse
  usageTracked : Bool
  deriving DecidableEq, Repr

/-- The `POST /embeddings` handler
(`app/routers/embeddings.py::create_embedding`): same error mapping as the
completions route (`ValueError` → 400, other exceptions → 500), no cache. -/
def embeddingHandler (router : ProviderRouter) (upstream : Except String EmbeddingResponse)
    (persist : Except String Unit) (x_user_id : Option String)
    (req_provider : Option String) : EmbedOutcome :=
  if (x_user_id.getD "").isEmpty then
    ⟨400, none, false⟩
  else
    match ProviderRouter.get_provider router req_provider with
    | Except.error _ => ⟨400, none, false⟩
    | Except.ok p =>
      match OpenAIProvider.embedResult upstream with
      | Except.error (PyErr.valueError _) => ⟨400, none, false⟩
      | Except.error (PyErr.otherError _) => ⟨500, none, false⟩
      | Except.ok resp =>
        match UsageTracker.track persist with
        | Except.error _ => ⟨500, none, true⟩
        | Except.ok _ =>
          ⟨200, some ⟨Provider.name p, resp.embedding, resp.model, resp.usage, resp.metadata⟩,
            true⟩

/-! ### Round-trip lemmas for the serialization -/

theorem dropLit_append (p s : List Char) : dropLit p (p ++ s) = some s := by
  induction p with
  | nil => rfl
  | cons c cs ih => simpa [dropLit] using ih

theorem hexVal_hexDig : ∀ k, k < 16 → hexVal (hexDig k) = k := by decide

theorem hex4_val (n : ℕ) (h : n < 65536) :
    ((hexVal (hexDig (n / 4096 % 16)) * 16 + hexVal (hexDig (n / 256 % 16))) * 16 +
      hexVal (hexDig (n / 16 % 16))) * 16 + hexVal (hexDig (n % 16)) = n := by
  rw [hexVal_hexDig _ (Nat.mod_lt _ (by norm_num)), hexVal_hexDig _ (Nat.mod_lt _ (by norm_num)),
      hexVal_hexDig _ (Nat.mod_lt _ (by norm_num)), hexVal_hexDig _ (Nat.mod_lt _ (by norm_num))]
  omega

theorem char_toNat_lt (c : Char) : c.toNat < 1114112 := by
  have hv := c.valid
  have he : c.toNat = c.val.toNat := rfl
  rcases hv with h | h <;> omega

theorem char_not_surrogate (c : Char) : ¬ (55296 ≤ c.toNat ∧ c.toNat < 57344) := by
  have hv := c.valid
  have he : c.toNat = c.val.toNat := rfl
  rcases hv with h | h <;> omega

theorem unescAux_quote (fuel : ℕ) (r : List Char) :
    unescAux (fuel + 1) ('"' :: r) = some ([], r) := rfl

theorem unescAux_plain (fuel : ℕ) (c : Char) (r : List Char) (h1 : c ≠ '"') (h2 : c ≠ '\\') :
    unescAux (fuel + 1) (c :: r) = consR c (unescAux fuel r) := by
  simp [unescAux, h1, h2]

theorem unescAux_u (fuel : ℕ) (h1 h2 h3 h4 : Char) (r2 : List Char) :
    unescAux (fuel + 1) ('\\' :: 'u' :: h1 :: h2 :: h3 :: h4 :: r2) =
      (if 55296 ≤ ((hexVal h1 * 16 + hexVal h2) * 16 + hexVal h3) * 16 + hexVal h4 ∧
            ((hexVal h1 * 16 + hexVal h2) * 16 + hexVal h3) * 16 + hexVal h4 < 56320 then
         match r2 with
         | b1 :: b2 :: g1 :: g2 :: g3 :: g4 :: r3 =>
           if b1 = '\\' ∧ b2 = 'u' then
             consR (Char.ofNat (65536 +
                 (((hexVal h1 * 16 + hexVal h2) * 16 + hexVal h3) * 16 + hexVal h4 - 55296) * 1024 +
                 (((hexVal g1 * 16 + hexVal g2) * 16 + hexVal g3) * 16 + hexVal g4 - 56320)))
               (unescAux fuel r3)
           else none
         | _ => none
       else consR (Char.ofNat (((hexVal h1 * 16 + hexVal h2) * 16 + hexVal h3) * 16 + hexVal h4))
         (unescAux fuel r2)) := rfl

theorem unescAux_u2 (fuel : ℕ) (h1 h2 h3 h4 g1 g2 g3 g4 : Char) (r3 : List Char) :
    unescAux (fuel + 1)
        ('\\' :: 'u' :: h1 :: h2 :: h3 :: h4 :: '\\' :: 'u' :: g1 :: g2 :: g3 :: g4 :: r3) =
      (if 55296 ≤ ((hexVal h1 * 16 + hexVal h2) * 16 + hexVal h3) * 16 + hexVal h4 ∧
            ((hexVal h1 * 16 + hexVal h2) * 16 + hexVal h3) * 16 + hexVal h4 < 56320 then
         consR (Char.ofNat (65536 +
             (((hexVal h1 * 16 + hexVal h2) * 16 + hexVal h3) * 16 + hexVal h4 - 55296) * 1024 +
             (((hexVal g1 * 16 + hexVal g2) * 16 + hexVal g3) * 16 + hexVal g4 - 56320)))
           (unescAux fuel r3)
       else consR (Char.ofNat (((hexVal h1 * 16 + hexVal h2) * 16 + hexVal h3) * 16 + hexVal h4))
         (unescAux fuel ('\\' :: 'u' :: g1 :: g2 :: g3 :: g4 :: r3))) := rfl

theorem unescAux_escChar (c : Char) (fuel : ℕ) (rest : List Char) :
    unescAux (fuel + 1) (escChar c ++ rest) = consR c (unescAux fuel rest) := by
  by_cases hq : c = '"'
  · subst hq; rfl
  by_cases hb : c = '\\'
  · subst hb; rfl
  by_cases hn : c = '\n'
  · subst hn; rfl
  by_cases ht : c = '\t'
  · subst ht; rfl
  by_cases hr : c = '\r'
  · subst hr; rfl
  by_cases h8 : c = Char.ofNat 8
  · subst h8; rfl
  by_cases h12 : c = Char.ofNat 12
  · subst h12; rfl
  by_cases hp : 32 ≤ c.toNat ∧ c.toNat ≤ 126
  · have he : escChar c = [c] := by
      simp [escChar, hq, hb, hn, ht, hr, h8, h12, hp]
    rw [he]
    exact unescAux_plain fuel c rest hq hb
  by_cases hbmp : c.toNat < 65536
  · have he : escChar c = '\\' :: 'u' :: hex4 c.toNat := by
      simp [escChar, hq, hb, hn, ht, hr, h8, h12, hp, hbmp]
    have hns : ¬ (55296 ≤ c.toNat ∧ c.toNat < 56320) :=
      fun hsur => char_not_surrogate c ⟨hsur.1, by omega⟩
    rw [he]
    simp only [hex4, List.cons_append, List.nil_append]
    rw [unescAux_u, hex4_val c.toNat hbmp, if_neg hns, Char.ofNat_toNat]
  · have he : escChar c =
        ('\\' :: 'u' :: hex4 (55296 + (c.toNat - 65536) / 1024)) ++
        ('\\' :: 'u' :: hex4 (56320 + (c.toNat - 65536) % 1024)) := by
      simp [escChar, hq, hb, hn, ht, hr, h8, h12, hp, hbmp]
    have hlt := char_toNat_lt c
    have hdiv : (c.toNat - 65536) / 1024 < 1024 := by omega
    have hmod : (c.toNat - 65536) % 1024 < 1024 := by omega
    rw [he]
    simp only [hex4, List.cons_append, List.append_assoc, List.nil_append]
    rw [unescAux_u2, hex4_val _ (by omega), hex4_val _ (by omega), if_pos (by omega)]
    have hc : 65536 + (55296 + (c.toNat - 65536) / 1024 - 55296) * 1024 +
        (56320 + (c.toNat - 65536) % 1024 - 56320) = c.toNat := by omega
    rw [hc, Char.ofNat_toNat]

theorem digit_hexDig : ∀ k, k < 10 → isDigitC (hexDig k) = true := by decide

theorem hexDig_toNat : ∀ k, k < 10 → (hexDig k).toNat = 48 + k := by decide

theorem natDigitsAux_digits : ∀ (fuel n : ℕ), ∀ c ∈ natDigitsAux fuel n, isDigitC c = true := by
  intro fuel
  induction fuel with
  | zero => intro n c hc; simp [natDigitsAux] at hc
  | succ f ih =>
    intro n c hc
    by_cases h10 : n < 10
    · simp only [natDigitsAux, if_pos h10, List.mem_singleton] at hc
      subst hc
      exact digit_hexDig n h10
    · simp only [natDigitsAux, if_neg h10, List.mem_append, List.mem_singleton] at hc
      rcases hc with hc | hc
      · exact ih (n / 10) c hc
      · subst hc
        exact digit_hexDig _ (Nat.mod_lt _ (by norm_num))

theorem foldl_natDigitsAux : ∀ (fuel n : ℕ), n < fuel → ∀ acc : ℕ,
    (natDigitsAux fuel n).foldl (fun acc c => 10 * acc + (c.toNat - 48)) acc =
      acc * 10 ^ (natDigitsAux fuel n).length + n := by
  intro fuel
  induction fuel with
  | zero => omega
  | succ f ih =>
    intro n hn acc
    by_cases h10 : n < 10
    · simp only [natDigitsAux, if_pos h10, List.foldl_cons, List.foldl_nil,
        List.length_singleton, pow_one, hexDig_toNat n h10]
      omega
    · simp only [natDigitsAux, if_neg h10, List.foldl_append, List.length_append,
        List.foldl_cons, List.foldl_nil, List.length_singleton]
      rw [ih (n / 10) (by omega) acc, hexDig_toNat (n % 10) (by omega), pow_succ, ← mul_assoc]
      omega

theorem natDigits_ne_nil (n : ℕ) : natDigits n ≠ [] := by
  unfold natDigits natDigitsAux
  by_cases h : n < 10 <;> simp [h]

theorem natDigits_digits (n : ℕ) : ∀ c ∈ natDigits n, isDigitC c = true :=
  natDigitsAux_digits (n + 1) n

theorem digitsToNat_natDigits (n : ℕ) : digitsToNat (natDigits n) = n := by
  have h := foldl_natDigitsAux (n + 1) n (by omega) 0
  simpa [digitsToNat, natDigits] using h

theorem takeWhile_append_all (p : Char → Bool) (xs r : List Char)
    (hx : ∀ c ∈ xs, p c = true) (hr : ∀ c, r.head? = some c → p c = false) :
    (xs ++ r).takeWhile p = xs ∧ (xs ++ r).dropWhile p = r := by
  induction xs with
  | nil =>
    cases r with
    | nil => simp
    | cons c cs =>
      have hc := hr c rfl
      simp [List.takeWhile_cons, List.dropWhile_cons, hc]
  | cons x xs ih =>
    have hpx := hx x (by simp)
    have hrec := ih (fun c hc => hx c (by simp [hc]))
    simp [List.takeWhile_cons, List.dropWhile_cons, hpx, hrec.1, hrec.2]

theorem parseNat_natDigits (n : ℕ) (r : List Char)
    (hr : ∀ c, r.head? = some c → isDigitC c = false) :
    parseNat (natDigits n ++ r) = some (n, r) := by
  obtain ⟨hta, hdr⟩ := takeWhile_append_all isDigitC (natDigits n) r (natDigits_digits n) hr
  simp only [parseNat, hta, hdr]
  rw [if_neg (by simp [List.isEmpty_iff, natDigits_ne_nil n]), digitsToNat_natDigits]

theorem head_not_digit (c0 : Char) (h : isDigitC c0 = false) (x : List Char) :
    ∀ c, (c0 :: x).head? = some c → isDigitC c = false := by
  intro c hc
  simp only [List.head?_cons, Option.some.injEq] at hc
  subst hc
  exact h

theorem parseRatMag_spec (a d : ℕ) (r : List Char)
    (hr : ∀ c, r.head? = some c → isDigitC c = false) :
    parseRatMag (natDigits a ++ '/' :: (natDigits d ++ r)) = some ((a, d), r) := by
  rw [parseRatMag.eq_def,
    parseNat_natDigits a ('/' :: (natDigits d ++ r)) (head_not_digit '/' (by decide) _)]
  simp only
  rw [parseNat_natDigits d r hr]

theorem parseRat_ratRepr (q : ℚ) (r : List Char)
    (hr : ∀ c, r.head? = some c → isDigitC c = false) :
    parseRat (ratRepr q ++ r) = some (q, r) := by
  by_cases hneg : q.num < 0
  · have h2 : ((q.num.natAbs : ℚ)) = -(q.num : ℚ) := by
      rw [Int.cast_natAbs, abs_of_neg hneg, Int.cast_neg]
    have hval : -((q.num.natAbs : ℚ)) / ((q.den : ℕ) : ℚ) = q := by
      rw [h2, neg_neg, Rat.num_div_den]
    have hrepr : ratRepr q ++ r =
        '-' :: (natDigits q.num.natAbs ++ '/' :: (natDigits q.den ++ r)) := by
      simp only [ratRepr, if_pos hneg]
      simp [List.append_assoc]
    rw [hrepr, parseRat.eq_def]
    simp only
    rw [parseRatMag_spec q.num.natAbs q.den r hr]
    simp [hval]
  · have h2 : ((q.num.natAbs : ℚ)) = (q.num : ℚ) := by
      rw [Int.cast_natAbs, abs_of_nonneg (not_lt.mp hneg)]
    have hval : ((q.num.natAbs : ℚ)) / ((q.den : ℕ) : ℚ) = q := by
      rw [h2, Rat.num_div_den]
    obtain ⟨d0, ds0, hds⟩ := List.exists_cons_of_ne_nil (natDigits_ne_nil q.num.natAbs)
    have hd0 : isDigitC d0 = true := natDigits_digits q.num.natAbs d0 (by rw [hds]; simp)
    have hd0ne : ¬ d0 = '-' := by
      intro h
      subst h
      simp [isDigitC] at hd0
    have hrepr : ratRepr q ++ r =
        d0 :: (ds0 ++ '/' :: (natDigits q.den ++ r)) := by
      simp only [ratRepr, if_neg hneg, hds]
      simp [List.append_assoc]
    rw [hrepr, parseRat.eq_def]
    simp only [if_neg hd0ne]
    have hback : d0 :: (ds0 ++ '/' :: (natDigits q.den ++ r)) =
        natDigits q.num.natAbs ++ '/' :: (natDigits q.den ++ r) := by
      rw [hds]
      rfl
    rw [hback, parseRatMag_spec q.num.natAbs q.den r hr]
    simp [hval]

theorem unescAux_jsonEscape (s : List Char) : ∀ (fuel : ℕ) (rest : List Char),
    s.length < fuel →
    unescAux fuel (jsonEscape s ++ '"' :: rest) = some (s, rest) := by
  induction s with
  | nil =>
    intro fuel rest h
    obtain ⟨f, rfl⟩ : ∃ f, fuel = f + 1 := ⟨fuel - 1, by omega⟩
    exact unescAux_quote f rest
  | cons c cs ih =>
    intro fuel rest h
    obtain ⟨f, rfl⟩ : ∃ f, fuel = f + 1 := ⟨fuel - 1, by omega⟩
    simp only [jsonEscape, List.append_assoc]
    rw [unescAux_escChar c f, ih f rest (by simpa using h)]
    rfl

theorem parseMsg_spec (m : Msg) (rest : List Char) (uf : ℕ)
    (hc : m.content.data.length < uf) (hrl : m.role.data.length < uf) :
    parseMsg uf (msgJson m ++ rest) = some (m, rest) := by
  have hshape : msgJson m ++ rest =
      msgPre ++ (jsonEscape m.content.data ++
        '"' :: (midLit ++ (jsonEscape m.role.data ++ '"' :: (closeLit ++ rest)))) := by
    simp [msgJson, List.append_assoc]
  rw [hshape, parseMsg.eq_def, dropLit_append]
  simp only
  rw [unescAux_jsonEscape m.content.data uf _ hc]
  simp only
  rw [dropLit_append]
  simp only
  rw [unescAux_jsonEscape m.role.data uf _ hrl]
  simp only
  rw [dropLit_append]

theorem sepLit_stop (rest : List Char) (h : rest.head? = some ']') :
    dropLit sepLit rest = none := by
  cases rest with
  | nil => simp at h
  | cons c cs =>
    simp only [List.head?_cons, Option.some.injEq] at h
    subst h
    rfl

theorem parseMsgsAux_spec : ∀ (ms : List Msg) (lf uf : ℕ) (rest : List Char),
    ms ≠ [] →
    ms.length ≤ lf →
    (∀ m ∈ ms, m.content.data.length < uf ∧ m.role.data.length < uf) →
    rest.head? = some ']' →
    parseMsgsAux lf uf (msgsJson ms ++ rest) = some (ms, rest) := by
  intro ms
  induction ms with
  | nil => intro _ _ _ hne _ _ _; exact absurd rfl hne
  | cons m tl ih =>
    intro lf uf rest _ hlen hbound hr
    obtain ⟨l, rfl⟩ : ∃ l, lf = l + 1 := ⟨lf - 1, by simp at hlen; omega⟩
    obtain ⟨hmc, hmr⟩ := hbound m (by simp)
    cases tl with
    | nil =>
      show parseMsgsAux (l + 1) uf (msgJson m ++ rest) = some ([m], rest)
      rw [parseMsgsAux.eq_def]
      simp only
      rw [parseMsg_spec m rest uf hmc hmr]
      simp only
      rw [sepLit_stop rest hr]
    | cons m2 tl2 =>
      have hshape : msgsJson (m :: m2 :: tl2) ++ rest =
          msgJson m ++ (sepLit ++ (msgsJson (m2 :: tl2) ++ rest)) := by
        simp [msgsJson, List.append_assoc]
      rw [hshape, parseMsgsAux.eq_def]
      simp only
      rw [parseMsg_spec m _ uf hmc hmr]
      simp only
      rw [dropLit_append]
      simp only
      rw [ih l uf rest (by simp) (by simp only [List.length_cons] at hlen ⊢; omega)
        (fun x hx => hbound x (List.mem_cons_of_mem m hx)) hr]

theorem escChar_ne_nil (c : Char) : 1 ≤ (escChar c).length := by
  unfold escChar
  split_ifs <;> simp [hex4]

theorem jsonEscape_ge_length (l : List Char) : l.length ≤ (jsonEscape l).length := by
  induction l with
  | nil => simp [jsonEscape]
  | cons c cs ih =>
    have := escChar_ne_nil c
    simp only [jsonEscape, List.length_append, List.length_cons]
    omega

theorem msg_le_msgJson (m : Msg) :
    m.content.data.length ≤ (msgJson m).length ∧ m.role.data.length ≤ (msgJson m).length := by
  have h1 := jsonEscape_ge_length m.content.data
  have h2 := jsonEscape_ge_length m.role.data
  simp only [msgJson, List.length_append, List.length_cons]
  omega

theorem msgJson_le_msgsJson : ∀ (ms : List Msg) (m : Msg), m ∈ ms →
    (msgJson m).length ≤ (msgsJson ms).length := by
  intro ms
  induction ms with
  | nil => intro m hm; simp at hm
  | cons x tl ih =>
    intro m hm
    cases tl with
    | nil =>
      simp only [List.mem_singleton] at hm
      subst hm
      simp [msgsJson]
    | cons y tl2 =>
      rcases List.mem_cons.mp hm with hm | hm
      · subst hm
        simp [msgsJson, List.length_append]
      · have := ih m hm
        simp only [msgsJson, List.length_append]
        omega

theorem count_le_msgsJson : ∀ ms : List Msg, ms.length ≤ (msgsJson ms).length := by
  intro ms
  induction ms with
  | nil => simp [msgsJson]
  | cons x tl ih =>
    have hx : 1 ≤ (msgJson x).length := by
      simp only [msgJson, List.length_append, List.length_cons]
      omega
    cases tl with
    | nil => simp only [msgsJson, List.length_cons, List.length_nil]; omega
    | cons y tl2 =>
      simp only [msgsJson, List.length_append, List.length_cons] at ih ⊢
      omega

theorem closeLit_not_digit : ∀ c, closeLit.head? = some c → isDigitC c = false := by
  intro c hc
  have : closeLit = ['\x7d'] := rfl
  rw [this] at hc
  simp only [List.head?_cons, Option.some.injEq] at hc
  subst hc
  rfl

theorem dropLit_self (p : List Char) : dropLit p p = some [] := by
  have := dropLit_append p []
  simpa using this

theorem cacheParse_cacheStr (ms : List Msg) (q : ℚ) :
    cacheParse (cacheStr ms q) = some (ms, q) := by
  cases ms with
  | nil =>
    have hshape : cacheStr [] q = headLit ++ (tailLit ++ (ratRepr q ++ closeLit)) := by
      simp [cacheStr, msgsJson, List.append_assoc]
    rw [hshape, cacheParse.eq_def, dropLit_append]
    simp only
    rw [dropLit_append]
    simp only
    rw [parseRat_ratRepr q closeLit closeLit_not_digit]
    simp only
    rw [dropLit_self]
  | cons m tl =>
    have hshape : cacheStr (m :: tl) q =
        headLit ++ (msgsJson (m :: tl) ++ (tailLit ++ (ratRepr q ++ closeLit))) := by
      simp [cacheStr, List.append_assoc]
    obtain ⟨t, ht⟩ : ∃ t, msgsJson (m :: tl) = '\x7b' :: t := by
      cases tl <;> exact ⟨_, rfl⟩
    have hrest : (tailLit ++ (ratRepr q ++ closeLit)).head? = some ']' := rfl
    have hlen1 : (m :: tl).length ≤
        (msgsJson (m :: tl) ++ (tailLit ++ (ratRepr q ++ closeLit))).length + 1 := by
      have := count_le_msgsJson (m :: tl)
      simp only [List.length_append] at *
      omega
    have hbound : ∀ x ∈ m :: tl,
        x.content.data.length <
            (msgsJson (m :: tl) ++ (tailLit ++ (ratRepr q ++ closeLit))).length + 1 ∧
        x.role.data.length <
            (msgsJson (m :: tl) ++ (tailLit ++ (ratRepr q ++ closeLit))).length + 1 := by
      intro x hx
      have h1 := msg_le_msgJson x
      have h2 := msgJson_le_msgsJson (m :: tl) x hx
      simp only [List.length_append]
      omega
    rw [hshape, cacheParse.eq_def, dropLit_append]
    simp only
    rw [show dropLit tailLit (msgsJson (m :: tl) ++ (tailLit ++ (ratRepr q ++ closeLit))) =
        none from by rw [ht]; rfl]
    simp only
    rw [parseMsgsAux_spec (m :: tl) _ _ _ (by simp) hlen1 hbound hrest]
    simp only
    rw [dropLit_append]
    simp only
    rw [parseRat_ratRepr q closeLit closeLit_not_digit]
    simp only
    rw [dropLit_self]

theorem cacheStr_inj (ms1 ms2 : List Msg) (q1 q2 : ℚ)
    (h : cacheStr ms1 q1 = cacheStr ms2 q2) : ms1 = ms2 ∧ q1 = q2 := by
  have h1 := cacheParse_cacheStr ms1 q1
  rw [h, cacheParse_cacheStr ms2 q2] at h1
  simp only [Option.some.injEq, Prod.mk.injEq] at h1
  exact ⟨h1.1.symm, h1.2.symm⟩

/-! ### Association-list (dict) lemmas -/

theorem alookup_aupdate_self (k : String) (v : α) (l : List (String × α)) :
    alookup k (aupdate k v l) = some v := by
  induction l with
  | nil => simp [aupdate, alookup]
  | cons p rest ih =>
    obtain ⟨k2, w⟩ := p
    by_cases h : k2 = k
    · subst h
      simp [aupdate, alookup]
    · simp [aupdate, alookup, h, ih]

theorem alookup_aerase_self (k : String) (l : List (String × α)) :
    alookup k (aerase k l) = none := by
  induction l with
  | nil => simp [aerase, alookup]
  | cons p rest ih =>
    obtain ⟨k2, w⟩ := p
    by_cases h : k2 = k
    · subst h
      simp [aerase, ih]
    · simp [aerase, alookup, h, ih]

/-! ### Claim theorems: the completion cache (C3, C4, C5) -/

theorem get_cache_key_eligible (hash : List Char → String) (M : List Msg) (t : ℚ)
    (hT : t ≤ 3 / 10) :
    get_cache_key hash M t = some (hash (cacheStr M t)) := by
  simp [get_cache_key, not_lt.mpr hT]

theorem set_eligible (hash : List Char → String) {α : Type} (c : CompletionCache α)
    (M : List Msg) (t : ℚ) (R : α) (t0 : ℚ) (hT : t ≤ 3 / 10)
    (hk : (hash (cacheStr M t)).isEmpty = false) :
    CompletionCache.set hash c t0 M R t =
      ⟨aupdate (hash (cacheStr M t)) ⟨R, t0⟩ c.cache, c.ttl_seconds⟩ := by
  simp [CompletionCache.set, get_cache_key_eligible hash M t hT, hk]

/-- C3: after `set(M, R, t)` at time `t0` with eligible `t ≤ 0.3`, a
`get(M, t)` at any time `t1` with `t1 - t0 ≤ ttl` returns `R` and leaves
the cache unchanged — hence (second conjunct) any sequence of such reads
returns `R` every time; once `t1 - t0 > ttl`, `get` returns absent and
that read deletes the stored entry. -/
theorem cache_determinism (hash : List Char → String) {α : Type}
    (c : CompletionCache α) (M : List Msg) (t : ℚ) (R : α) (t0 : ℚ)
    (hT : t ≤ 3 / 10) (hk : (hash (cacheStr M t)).isEmpty = false) :
    (∀ t1, t1 - t0 ≤ c.ttl_seconds →
      CompletionCache.get hash (CompletionCache.set hash c t0 M R t) t1 M t =
        (some R, CompletionCache.set hash c t0 M R t)) ∧
    (∀ times : List ℚ, (∀ u ∈ times, u - t0 ≤ c.ttl_seconds) →
      (CompletionCache.getMany hash (CompletionCache.set hash c t0 M R t) times M t).1 =
        times.map fun _ => some R) ∧
    (∀ t1, t1 - t0 > c.ttl_seconds →
      (CompletionCache.get hash (CompletionCache.set hash c t0 M R t) t1 M t).1 = none ∧
      alookup (hash (cacheStr M t))
        (CompletionCache.get hash (CompletionCache.set hash c t0 M R t) t1 M t).2.cache =
        none) := by
  have hkey := get_cache_key_eligible hash M t hT
  have hset := set_eligible hash c M t R t0 hT hk
  have hone : ∀ t1, t1 - t0 ≤ c.ttl_seconds →
      CompletionCache.get hash (CompletionCache.set hash c t0 M R t) t1 M t =
        (some R, CompletionCache.set hash c t0 M R t) := by
    intro t1 h1
    rw [hset]
    simp [CompletionCache.get, hkey, hk, alookup_aupdate_self, not_lt.mpr h1]
  refine ⟨hone, ?_, ?_⟩
  · intro times
    induction times with
    | nil => intro _; simp [CompletionCache.getMany]
    | cons u us ih =>
      intro hall
      have hu := hone u (hall u (by simp))
      simp only [CompletionCache.getMany, hu, List.map_cons]
      rw [ih (fun v hv => hall v (by simp [hv]))]
  · intro t1 h1
    rw [hset]
    simp [CompletionCache.get, hkey, hk, alookup_aupdate_self, h1, alookup_aerase_self]

/-- Witness for `cache_determinism`: a concrete set-then-get within ttl. -/
theorem cache_determinism_witness :
    CompletionCache.get (fun _ => "k")
        (CompletionCache.set (fun _ => "k") (⟨[], 3600⟩ : CompletionCache ℕ) 0
          [⟨"user", "Hi"⟩] 42 0) 0 [⟨"user", "Hi"⟩] 0 =
      (some 42,
        CompletionCache.set (fun _ => "k") (⟨[], 3600⟩ : CompletionCache ℕ) 0
          [⟨"user", "Hi"⟩] 42 0) :=
  (cache_determinism (fun _ => "k") ⟨[], 3600⟩ [⟨"user", "Hi"⟩] 0 42 0
    (by norm_num) rfl).1 0 (by norm_num)

/-- C4: with `t > 0.3` the derived key is `None`, so `set` is a no-op (the
cache state is unchanged, no entry is ever created) and `get` with the
same arguments returns absent — also after a preceding `set`. -/
theorem cache_exclusion (hash : List Char → String) {α : Type}
    (c : CompletionCache α) (M : List Msg) (t : ℚ) (R : α) (t0 t1 : ℚ)
    (hT : t > 3 / 10) :
    CompletionCache.set hash c t0 M R t = c ∧
    CompletionCache.get hash c t1 M t = (none, c) ∧
    CompletionCache.get hash (CompletionCache.set hash c t0 M R t) t1 M t =
      (none, CompletionCache.set hash c t0 M R t) := by
  have hkey : get_cache_key hash M t = none := by simp [get_cache_key, hT]
  refine ⟨?_, ?_, ?_⟩ <;> simp [CompletionCache.set, CompletionCache.get, hkey]

/-- Witness for `cache_exclusion` at `t = 1 > 0.3`. -/
theorem cache_exclusion_witness :
    CompletionCache.set (fun _ => "k") (⟨[], 3600⟩ : CompletionCache ℕ) 0
      [⟨"user", "Hi"⟩] 7 1 = (⟨[], 3600⟩ : CompletionCache ℕ) :=
  (cache_exclusion (fun _ => "k") ⟨[], 3600⟩ [⟨"user", "Hi"⟩] 1 7 0 5 (by norm_num)).1

/-- C5: for cache-eligible temperatures the cache key determines the
request, assuming the hash (SHA-256, which the source treats as
collision-free ground truth) is injective: equal keys force equal message
lists and equal temperatures.  Contrapositively, reordering the messages
into a different list, changing any message's `content` or `role`, or
changing the temperature (both staying ≤ 0.3) changes the key. -/
theorem cache_key_sensitivity (hash : List Char → String)
    (hinj : Function.Injective hash) (M1 M2 : List Msg) (t1 t2 : ℚ)
    (h1 : t1 ≤ 3 / 10) (h2 : t2 ≤ 3 / 10)
    (heq : get_cache_key hash M1 t1 = get_cache_key hash M2 t2) :
    M1 = M2 ∧ t1 = t2 := by
  rw [get_cache_key_eligible hash M1 t1 h1, get_cache_key_eligible hash M2 t2 h2] at heq
  exact cacheStr_inj M1 M2 t1 t2 (hinj (Option.some.inj heq))

/-- Witness for `cache_key_sensitivity` with an injective hash. -/
theorem cache_key_sensitivity_witness :
    ([⟨"user", "Hi"⟩] : List Msg) = [⟨"user", "Hi"⟩] ∧ (0 : ℚ) = 0 :=
  cache_key_sensitivity (fun l => String.mk l)
    (fun a b h => by simpa using congrArg String.data h)
    [⟨"user", "Hi"⟩] [⟨"user", "Hi"⟩] 0 0 (by norm_num) (by norm_num) rfl

/-! ### Claim theorems: provider router (C2, C8) -/

/-- C2 counterexample: a configuration with the Anthropic vendor enabled
and its credential present nevertheless yields a router without an
`"anthropic"` entry — the registration is commented out in
`ProviderRouter.__init__`, so "registered iff both flags hold" fails for
vendor-B. -/
theorem anthropic_configured_not_registered :
    alookup "anthropic"
      (ProviderRouter.init
        ⟨true, "sk-test-key-123456789", true, some "sk-ant-api03-key", false, none⟩).providers =
      none := rfl

/-- C2 amended: the primary vendor (OpenAI) is registered iff its enabled
flag and its credential-present flag both hold; the vendor-B/vendor-C
placeholders (Anthropic, Gemini) are never registered, whatever their
flags. -/
theorem router_registration (s : Settings) :
    (alookup "openai" (ProviderRouter.init s).providers =
      if s.openai_enabled && !s.openai_api_key.isEmpty then some Provider.openaiProvider
      else none) ∧
    alookup "anthropic" (ProviderRouter.init s).providers = none ∧
    alookup "gemini" (ProviderRouter.init s).providers = none := by
  unfold ProviderRouter.init
  split_ifs with h <;> exact ⟨rfl, rfl, rfl⟩

/-- C8: with at least one provider registered in a router built at
startup, `get_provider(None)` returns the first (and only possible)
registered provider — OpenAI — every time (`get_provider` is a pure
function of the startup-built state, so repeated calls agree); with none
registered it raises `ValueError("No providers available")`. -/
theorem router_default_resolution (s : Settings) :
    ((ProviderRouter.init s).providers ≠ [] →
      ProviderRouter.get_provider (ProviderRouter.init s) none =
          Except.ok Provider.openaiProvider ∧
        (ProviderRouter.init s).providers.head? =
          some ("openai", Provider.openaiProvider)) ∧
    ((ProviderRouter.init s).providers = [] →
      ProviderRouter.get_provider (ProviderRouter.init s) none =
        Except.error RouterError.noProvidersAvailable) := by
  unfold ProviderRouter.init ProviderRouter.get_provider
  split_ifs with h
  · exact ⟨fun _ => ⟨rfl, rfl⟩, fun hc => by simp at hc⟩
  · exact ⟨fun hc => absurd rfl hc, fun _ => rfl⟩

/-- Witness for `router_default_resolution`: a configured router resolves
the default to OpenAI. -/
theorem router_default_resolution_witness :
    ProviderRouter.get_provider
        (ProviderRouter.init ⟨true, "sk-test-key-123456789", false, none, false, none⟩) none =
      Except.ok Provider.openaiProvider :=
  ((router_default_resolution ⟨true, "sk-test-key-123456789", false, none, false, none⟩).1
    (by decide)).1

/-! ### Claim theorems: provider errors surface as 400, not 500 (C1) -/

/-- C1 (against the claim): on the embedding path — the only synchronous
path on which the program actually reaches an upstream vendor call — an
upstream failure is wrapped in `ValueError("OpenAI embedding error: ...")`
by `OpenAIProvider.embed`, and the route handler maps `ValueError` to
HTTP 400, so at this concrete failing input the caller receives a
400-class BadRequest, not the 500-class failure the specification states.
(On the completion path no upstream call ever fails because none is ever
made: the handler raises on `request.response_format` first — see
`completeHandler` — so the claim's completion half is unrealizable.) -/
theorem embed_provider_error_yields_400 :
    (embeddingHandler
        (ProviderRouter.init ⟨true, "sk-test-key-123456789", false, none, false, none⟩)
        (Except.error "Connection error") (Except.ok ()) (some "user-123") none).status =
      400 := by
  norm_num [embeddingHandler, ProviderRouter.init, ProviderRouter.get_provider, alookup,
    OpenAIProvider.embedResult]

/-! ### Claim theorems: stream termination (C6) -/

theorem tokenChunks_not_terminal (chunks : List UpChunk) :
    ∀ x ∈ tokenChunks chunks, StreamChunk.isTerminal x = false := by
  intro x hx
  simp only [tokenChunks, List.mem_map, List.mem_filter] at hx
  obtain ⟨ch, _, rfl⟩ := hx
  rfl

/-- C6: whatever the upstream transport does (clean completion, failure
before the first chunk, or failure mid-stream), the chunk sequence
produced by `OpenAIProvider.stream` is some non-terminal `token` chunks
followed by exactly one terminal chunk (`end` xor `error`), which is the
last element; mid-stream failure becomes an `error` chunk instead of a
raised exception. -/
theorem stream_termination (o : UpOutcome) :
    ∃ ts t, OpenAIProvider.stream o = ts ++ [t] ∧
      (∀ x ∈ ts, StreamChunk.isTerminal x = false) ∧
      StreamChunk.isTerminal t = true := by
  cases o with
  | setupFailure e => exact ⟨[], StreamChunk.errorChunk e, rfl, by simp, rfl⟩
  | run chunks failure =>
    cases failure with
    | none =>
      exact ⟨tokenChunks chunks, StreamChunk.endChunk (finalUsage chunks), rfl,
        tokenChunks_not_terminal chunks, rfl⟩
    | some e =>
      exact ⟨tokenChunks chunks, StreamChunk.errorChunk e, rfl,
        tokenChunks_not_terminal chunks, rfl⟩

/-! ### Claim theorems: usage-persistence isolation (C7) -/

theorem track_never_fails (persist : Except String Unit) :
    UsageTracker.track persist = Except.ok () := by
  cases persist <;> rfl

/-- C7: a persistence failure never escapes `UsageTracker.track` (the
insert is wrapped in `try/except Exception` which logs and returns), and
the observable outcome of a request (status code, body, cache state) is
identical whether the persistence write succeeds or fails.  On the
embedding path — the only synchronous path whose `track` call is live —
this is the isolation the claim states; on the completion path it holds
trivially because the handler raises before ever reaching its `track`
call (see `completeHandler`). -/
theorem usage_isolation (hash : List Char → String)
    (cache : CompletionCache StoredCompletion) (router : ProviderRouter) (now : ℚ)
    (upstream : Except String CompletionResponse)
    (emb_upstream : Except String EmbeddingResponse)
    (p1 p2 : Except String Unit) (x_user_id : Option String)
    (req : CompletionRequest) (req_provider : Option String) :
    (∀ persist : Except String Unit, UsageTracker.track persist = Except.ok ()) ∧
    embeddingHandler router emb_upstream p1 x_user_id req_provider =
      embeddingHandler router emb_upstream p2 x_user_id req_provider ∧
    completeHandler hash cache router now upstream p1 x_user_id req =
      completeHandler hash cache router now upstream p2 x_user_id req := by
  refine ⟨track_never_fails, ?_, ?_⟩ <;>
    simp only [completeHandler, embeddingHandler, track_never_fails]

/-! ### Claim theorems: the cache-hit scenario is unreachable (C9) -/

/-- C9 (against the claim): on the synchronous path the only cache-populate
site (`completions.py` line 67) sits below the provider call whose keyword
construction always raises (`request.response_format` does not exist), so
every cache miss with a resolvable provider returns 500 — even when the
upstream vendor would have succeeded — without invoking the provider,
without storing to the cache (the post-state is exactly the state the
lookup left), and without recording usage.  No entry is ever stored, so
the stored-unexpired-entry hit state the claim presupposes is unreachable
and the hit branch of the handler is dead code. -/
theorem completion_miss_returns_500_without_caching (hash : List Char → String)
    (cache : CompletionCache StoredCompletion) (router : ProviderRouter) (now : ℚ)
    (upstream : Except String CompletionResponse) (persist : Except String Unit)
    (uid : String) (req : CompletionRequest) (huid : uid.isEmpty = false)
    (cache1 : CompletionCache StoredCompletion)
    (hmiss : CompletionCache.get hash cache now req.messages req.temperature =
      (none, cache1))
    (p : Provider)
    (hprov : ProviderRouter.get_provider router req.provider = Except.ok p) :
    completeHandler hash cache router now upstream persist (some uid) req =
      ⟨500, none, false, false, cache1⟩ := by
  unfold completeHandler
  rw [Option.getD_some, if_neg (by simp [huid]), hmiss, hprov]

/-- Witness for `completion_miss_returns_500_without_caching`: a concrete
cache-eligible request (temperature 0) on an empty cache, with a
configured router and a would-succeed upstream outcome, returns 500 and
leaves the cache empty. -/
theorem completion_miss_witness :
    completeHandler (fun _ => "k") (⟨[], 3600⟩ : CompletionCache StoredCompletion)
        (ProviderRouter.init ⟨true, "sk-test-key-123456789", false, none, false, none⟩) 0
        (Except.ok ⟨"Hello!", ⟨10, 5, 15⟩, "gpt-4o-mini", []⟩) (Except.ok ())
        (some "user-123") (⟨[⟨"user", "Hi"⟩], none, none, 0, none⟩ : CompletionRequest) =
      ⟨500, none, false, false, ⟨[], 3600⟩⟩ := by
  have hmiss : CompletionCache.get (fun _ => "k")
      (⟨[], 3600⟩ : CompletionCache StoredCompletion) 0 [⟨"user", "Hi"⟩] 0 =
      (none, ⟨[], 3600⟩) := by
    norm_num [CompletionCache.get, get_cache_key, alookup]
  exact completion_miss_returns_500_without_caching (fun _ => "k") _
    (ProviderRouter.init ⟨true, "sk-test-key-123456789", false, none, false, none⟩) 0
    (Except.ok ⟨"Hello!", ⟨10, 5, 15⟩, "gpt-4o-mini", []⟩) (Except.ok ()) "user-123"
    (⟨[⟨"user", "Hi"⟩], none, none, 0, none⟩ : CompletionRequest) rfl _ hmiss
    Provider.openaiProvider rfl

/-! ### Claim theorems: unknown roles accepted and converted to user (C10) -/

/-- C10: the request schema accepts any role string (both `Message` fields
are plain required strings), and `_convert_messages` maps a message whose
role is neither `system` nor `assistant` to a `HumanMessage` (user)
carrying its content, preserving the length and order of the list. -/
theorem unknown_role_accepted_as_user (role content : String) (msgs : List Msg)
    (hrs : role ≠ "system") (hra : role ≠ "assistant") :
    Message.validate (some role) (some content) = some ⟨role, content⟩ ∧
    OpenAIProvider.convert_messages [⟨role, content⟩] =
      [LCMessage.humanMessage content] ∧
    (OpenAIProvider.convert_messages msgs).length = msgs.length ∧
    (∀ (i : ℕ) (m : Msg), msgs[i]? = some m → m.role ≠ "system" → m.role ≠ "assistant" →
      (OpenAIProvider.convert_messages msgs)[i]? =
        some (LCMessage.humanMessage m.content)) := by
  refine ⟨rfl, by simp [OpenAIProvider.convert_messages, hrs, hra],
    by simp [OpenAIProvider.convert_messages], ?_⟩
  intro i m hm h1 h2
  simp [OpenAIProvider.convert_messages, List.getElem?_map, hm, h1, h2]

/-- Witness for `unknown_role_accepted_as_user` at the undocumented role
`"tool"`. -/
theorem unknown_role_witness :
    Message.validate (some "tool") (some "x") = some ⟨"tool", "x"⟩ ∧
    OpenAIProvider.convert_messages [⟨"tool", "x"⟩] = [LCMessage.humanMessage "x"] ∧
    (OpenAIProvider.convert_messages [⟨"tool", "x"⟩])[0]? =
      some (LCMessage.humanMessage "x") := by
  have h := unknown_role_accepted_as_user "tool" "x" [⟨"tool", "x"⟩]
    (by decide) (by decide)
  exact ⟨h.1, h.2.1, h.2.2.2 0 ⟨"tool", "x"⟩ rfl (by decide) (by decide)⟩

end App
